import Mathlib

/-!
Shallow embedding of the backend of `virtual-water-services`: a Node HTTP
server (`src/unnamed/part_002`) holding an in-memory store
`db = { courses, progress, certificates }` that is mutated by the route
handlers and rewritten to disk after every mutation.  The disk write
(`saveDb`) has no observable effect on the in-memory behaviour the claims
are about, so the model is the pure state transformer of each handler.

Conventions of the embedding:
* JavaScript falsy checks on required string fields (`!userId`,
  `!course.title`, ...) are modelled as equality with `""` (a missing field
  and the empty string are both falsy and take the same branch).
* `x-role` headers are `Option String` (`none` = header absent);
  `requireAdmin` passes exactly on `some "admin"`.
* `randomUUID ()` is modelled by passing the generated identifier as an
  explicit argument; freshness of the identifier is a hypothesis where a
  claim relies on it.
* `new Date ().toISOString ()` is an explicit `now : String` argument.
* `Math.round ((k / n) * 100)` is modelled as exact rational rounding
  half-up, `(200 * k + n) / (2 * n)` in natural division: JavaScript
  `Math.round` is `floor (x + 1/2)` for non-negative `x`.  For
  `n = 0` the JavaScript expression is `Infinity` (the record always has at
  least one completed lesson after a call), which is never equal to `100`;
  the model returns `0` there, which is likewise never `100`.
-/

namespace VirtualWater

/-- A lesson as stored inside a course (frontend `Lesson` interface); the
server only ever reads `course.lessons.length`, and compares URL `lessonId`
strings against the per-record `completedLessons` array. -/
structure Lesson where
  id : String
  title : String
  content : String
  type : String
  duration : Nat
deriving Repr, DecidableEq

/-- A course object in `db.courses`.  `progress` and `completed` are the
denormalized fields the POST handler initialises to `0` / `false`. -/
structure Course where
  id : String
  title : String
  description : String
  category : String
  lessons : List Lesson
  duration : Nat
  progress : Nat
  completed : Bool
deriving Repr, DecidableEq

/-- A per-(user, course) record in `db.progress`. -/
structure ProgressRecord where
  userId : String
  courseId : String
  completedLessons : List String
  progress : Nat
  completed : Bool
  certificateId : Option String
deriving Repr, DecidableEq

/-- A certificate in `db.certificates`. -/
structure Certificate where
  id : String
  userId : String
  courseId : String
  courseName : String
  completedAt : String
  score : Option Nat
deriving Repr, DecidableEq

/-- The in-memory store `db`. -/
structure Db where
  courses : List Course
  progress : List ProgressRecord
  certificates : List Certificate
deriving Repr, DecidableEq

/-- The empty store the server starts from when no data file exists. -/
def initDb : Db := { courses := [], progress := [], certificates := [] }

/-- Error responses the handlers produce. -/
inductive ApiError where
  /-- 400 with `{error: msg}`. -/
  | validation (msg : String)
  /-- 404 `{error: 'Not found'}`. -/
  | notFound
  /-- 403 `{error: 'Forbidden'}`, from `requireAdmin`. -/
  | forbidden
deriving Repr, DecidableEq

/-- The `{progress, completed}` body returned by the progress handler. -/
structure Snapshot where
  progress : Nat
  completed : Bool
deriving Repr, DecidableEq

/-- `req.headers['x-role'] !== 'admin'` sends 403; `none` is an absent
header. -/
def requireAdmin (role : Option String) : Bool :=
  role == some "admin"

/-- `Math.round ((k / n) * 100)` as exact rational rounding half-up (see
module docstring for the `n = 0` degenerate case). -/
def roundPercent (k n : Nat) : Nat :=
  (200 * k + n) / (2 * n)

/-- Replace the first element satisfying `p` by its image under `f`
(JavaScript `find` + in-place mutation leaves the object at its position). -/
def updateFirst {α : Type} (p : α → Bool) (f : α → α) : List α → List α
  | [] => []
  | x :: xs => if p x then f x :: xs else x :: updateFirst p f xs

/-- `db.progress.find(p => p.userId === userId && p.courseId === courseId)`'s
predicate. -/
def matchesKey (userId courseId : String) (p : ProgressRecord) : Bool :=
  p.userId == userId && p.courseId == courseId

/-- The record created when no progress record exists for the pair. -/
def freshRecord (userId courseId : String) : ProgressRecord :=
  { userId := userId, courseId := courseId, completedLessons := [],
    progress := 0, completed := false, certificateId := none }

/-- `if (!record.completedLessons.includes(lessonId)) push(lessonId)`. -/
def addLesson (lessonId : String) (r : ProgressRecord) : ProgressRecord :=
  if lessonId ∈ r.completedLessons then r
  else { r with completedLessons := r.completedLessons ++ [lessonId] }

/-- The in-place mutation of a progress record performed by the
`PATCH .../lessons/:lessonId/progress` handler: push `lessonId` if absent,
recompute `progress`, and set `completed` to `true` when the new progress is
`100` (it is never reset to `false`). -/
def stepRecord (course : Course) (lessonId : String) (r : ProgressRecord) :
    ProgressRecord :=
  let r1 := addLesson lessonId r
  let np := roundPercent r1.completedLessons.length course.lessons.length
  { r1 with progress := np,
            completed := if np = 100 then true else r1.completed }

/-- `PATCH /api/courses/:courseId/lessons/:lessonId/progress`. -/
def recordLessonCompletion (db : Db) (courseId lessonId userId : String) :
    Except ApiError (Db × Snapshot) :=
  if userId = "" then .error (.validation "userId required")
  else
    match db.courses.find? (fun c => c.id == courseId) with
    | none => .error .notFound
    | some course =>
      match db.progress.find? (matchesKey userId courseId) with
      | some r =>
        .ok ({ db with
                progress := updateFirst (matchesKey userId courseId)
                  (stepRecord course lessonId) db.progress },
             { progress := (stepRecord course lessonId r).progress,
               completed := (stepRecord course lessonId r).completed })
      | none =>
        .ok ({ db with
                progress := db.progress ++
                  [stepRecord course lessonId (freshRecord userId courseId)] },
             { progress :=
                 (stepRecord course lessonId
                   (freshRecord userId courseId)).progress,
               completed :=
                 (stepRecord course lessonId
                   (freshRecord userId courseId)).completed })

/-- The request body of `POST /api/courses`.  `lessons = none` models a body
whose `lessons` field fails `Array.isArray`; empty strings model missing or
empty required fields (both falsy).  Unknown extra body fields are spread
into the stored object by the handler but are never read back, so they are
not modelled. -/
structure CourseInput where
  title : String
  description : String
  category : String
  lessons : Option (List Lesson)
  duration : Nat
deriving Repr, DecidableEq

/-- The course object `{...course, id: randomUUID(), progress: 0,
completed: false}` pushed by `POST /api/courses`. -/
def newCourseOf (input : CourseInput) (newId : String) : Course :=
  { id := newId, title := input.title, description := input.description,
    category := input.category, lessons := input.lessons.getD [],
    duration := input.duration, progress := 0, completed := false }

/-- `POST /api/courses` after the admin gate: validate, then push the new
course.  `newId` stands for the `randomUUID ()` result. -/
def createCourse (db : Db) (input : CourseInput) (newId : String) :
    Except ApiError (Db × Course) :=
  if input.title = "" || input.description = "" || input.category = "" ||
      input.lessons.isNone then
    .error (.validation "Invalid course")
  else
    .ok ({ db with courses := db.courses ++ [newCourseOf input newId] },
         newCourseOf input newId)

/-- `POST /api/courses` including the `requireAdmin` gate. -/
def createCourseHandler (db : Db) (role : Option String) (input : CourseInput)
    (newId : String) : Except ApiError (Db × Course) :=
  if requireAdmin role then createCourse db input newId
  else .error .forbidden

/-- A `PATCH /api/courses/:id` body restricted to the fields of the course
shape; `none` means the key is absent from the body, so `Object.assign`
leaves the current value.  Note the body may carry an `id` field, which
`Object.assign` merges like any other. -/
structure CourseUpdate where
  id : Option String := none
  title : Option String := none
  description : Option String := none
  category : Option String := none
  lessons : Option (List Lesson) := none
  duration : Option Nat := none
  progress : Option Nat := none
  completed : Option Bool := none
deriving Repr, DecidableEq

/-- `Object.assign(course, update)` on the modelled fields. -/
def applyUpdate (c : Course) (u : CourseUpdate) : Course :=
  { id := u.id.getD c.id, title := u.title.getD c.title,
    description := u.description.getD c.description,
    category := u.category.getD c.category,
    lessons := u.lessons.getD c.lessons,
    duration := u.duration.getD c.duration,
    progress := u.progress.getD c.progress,
    completed := u.completed.getD c.completed }

/-- `PATCH /api/courses/:id` after the admin gate: find the course, mutate it
in place via `Object.assign`. -/
def updateCourse (db : Db) (courseId : String) (u : CourseUpdate) :
    Except ApiError (Db × Course) :=
  match db.courses.find? (fun c => c.id == courseId) with
  | none => .error .notFound
  | some course =>
    .ok ({ db with
            courses := updateFirst (fun c => c.id == courseId)
              (fun c => applyUpdate c u) db.courses },
         applyUpdate course u)

/-- `PATCH /api/courses/:id` including the `requireAdmin` gate (the code
checks the role before parsing the body or looking the course up). -/
def updateCourseHandler (db : Db) (role : Option String) (courseId : String)
    (u : CourseUpdate) : Except ApiError (Db × Course) :=
  if requireAdmin role then updateCourse db courseId u
  else .error .forbidden

/-- The certificate object pushed by `POST /api/courses/:id/certificates`. -/
def certOf (certId userId courseId : String) (course : Course) (now : String)
    (score : Option Nat) : Certificate :=
  { id := certId, userId := userId, courseId := courseId,
    courseName := course.title, completedAt := now, score := score }

/-- `record.certificateId = certId` on the found record. -/
def setCert (certId : String) (r : ProgressRecord) : ProgressRecord :=
  { r with certificateId := some certId }

/-- `POST /api/courses/:id/certificates`: no role gate, no completion check;
push a certificate capturing the course title, then set `certificateId` on
the first matching progress record if one exists.  `certId` stands for
`randomUUID ()`, `now` for `new Date ().toISOString ()`. -/
def issueCertificate (db : Db) (courseId userId : String) (score : Option Nat)
    (certId : String) (now : String) : Except ApiError (Db × String) :=
  if userId = "" then .error (.validation "userId required")
  else
    match db.courses.find? (fun c => c.id == courseId) with
    | none => .error .notFound
    | some course =>
      .ok ({ db with
              certificates := db.certificates ++
                [certOf certId userId courseId course now score],
              progress :=
                if (db.progress.find? (matchesKey userId courseId)).isSome
                then updateFirst (matchesKey userId courseId) (setCert certId)
                  db.progress
                else db.progress }, certId)

/-- `GET /api/courses`. -/
def listCourses (db : Db) : List Course :=
  db.courses

/-- One mutating API request, with the nondeterministically generated values
(`randomUUID`, timestamps) and the role header as explicit data. -/
inductive Op where
  | create (role : Option String) (input : CourseInput) (newId : String)
  | update (role : Option String) (courseId : String) (u : CourseUpdate)
  | record (courseId lessonId userId : String)
  | cert (courseId userId : String) (score : Option Nat) (certId : String)
      (now : String)
deriving Repr, DecidableEq

/-- The store after serving one request: on an error response every handler
returns before mutating `db`, so the store is unchanged. -/
def applyOp (db : Db) : Op → Db
  | .create role input newId =>
    match createCourseHandler db role input newId with
    | .ok (db', _) => db'
    | .error _ => db
  | .update role courseId u =>
    match updateCourseHandler db role courseId u with
    | .ok (db', _) => db'
    | .error _ => db
  | .record courseId lessonId userId =>
    match recordLessonCompletion db courseId lessonId userId with
    | .ok (db', _) => db'
    | .error _ => db
  | .cert courseId userId score certId now =>
    match issueCertificate db courseId userId score certId now with
    | .ok (db', _) => db'
    | .error _ => db

/-- The store after serving a sequence of requests. -/
def runOps (db : Db) (ops : List Op) : Db :=
  ops.foldl applyOp db

/-- A sequence of `recordLessonCompletion` calls for one (courseId, userId)
pair, one per element of `ls`. -/
def runRecords (db : Db) (courseId userId : String) (ls : List String) : Db :=
  ls.foldl (fun d lessonId => applyOp d (.record courseId lessonId userId)) db

/-- The record-level invariant claimed by the spec, weakened to the
direction the code maintains: a record whose stored percentage is exactly
100 has `completed = true`.  (The converse fails: `completed` is never reset
when the percentage moves past 100.) -/
def CompletedConsistent (db : Db) : Prop :=
  ∀ r ∈ db.progress, r.progress = 100 → r.completed = true

/-- `op` is benign for course-identifier uniqueness in state `db`: a
creation is supplied a fresh identifier (as `randomUUID` provides) and an
update's body carries no `id` field. -/
def safeOp (db : Db) : Op → Bool
  | .create _ _ newId => !(db.courses.map Course.id).contains newId
  | .update _ _ u => u.id.isNone
  | _ => true

/-- Every operation of the trace is benign in the state it executes in. -/
def safeTrace : Db → List Op → Bool
  | _, [] => true
  | db, op :: rest => safeOp db op && safeTrace (applyOp db op) rest

/-! ### Concrete data used by witnesses and counterexamples -/

def demoLesson (i : String) : Lesson :=
  { id := i, title := "t", content := "ref", type := "video", duration := 5 }

/-- A valid creation input with one lesson `L1`. -/
def demoInput1 : CourseInput :=
  { title := "Legionella", description := "Intro", category := "safety",
    lessons := some [demoLesson "L1"], duration := 5 }

/-- A valid creation input with two lessons `L1`, `L2`. -/
def demoInput2 : CourseInput :=
  { title := "Water Hygiene", description := "Basics", category := "safety",
    lessons := some [demoLesson "L1", demoLesson "L2"], duration := 10 }

/-- A store holding one two-lesson course `c1`. -/
def demoDb2 : Db := runOps initDb [.create (some "admin") demoInput2 "c1"]

/-- `demoDb2` after user `u1` completes lesson `L1`. -/
def demoDb2Done : Db := applyOp demoDb2 (.record "c1" "L1" "u1")

/-- Create the one-lesson course, complete its lesson, then complete a
lessonId `X` outside its lesson list: the record ends at progress 200 with
`completed` still true. -/
def demoOpsOver : List Op :=
  [.create (some "admin") demoInput1 "c1", .record "c1" "L1" "u1",
   .record "c1" "X" "u1"]

/-- Create the two-lesson course and complete both lessons. -/
def demoOpsDone : List Op :=
  [.create (some "admin") demoInput2 "c1", .record "c1" "L1" "u1",
   .record "c1" "L2" "u1"]

/-- Create the two-lesson course, complete `L1` and a foreign `X`: the
stored percentage is 100 though `L2` was never passed. -/
def demoOpsC1 : List Op :=
  [.create (some "admin") demoInput2 "c1", .record "c1" "L1" "u1",
   .record "c1" "X" "u1"]

/-- Create the two-lesson course, complete both lessons and a foreign `X`:
the stored percentage is 150. -/
def demoOpsC10 : List Op :=
  [.create (some "admin") demoInput2 "c1", .record "c1" "L1" "u1",
   .record "c1" "L2" "u1", .record "c1" "X" "u1"]

/-- Create two courses with distinct fresh ids `A`, `B`, then update course
`A` with a body containing `id: "B"`. -/
def demoOpsDup : List Op :=
  [.create (some "admin") demoInput1 "A",
   .create (some "admin") demoInput1 "B",
   .update (some "admin") "A" { id := some "B" }]

/-! ### Library lemmas about `updateFirst` and `List.find?` -/

theorem find?_append_of_none {α : Type} (p : α → Bool) {l₁ : List α}
    (l₂ : List α) (h : l₁.find? p = none) :
    (l₁ ++ l₂).find? p = l₂.find? p := by
  rw [List.find?_append, h, Option.none_or]

theorem mem_updateFirst {α : Type} (p : α → Bool) (f : α → α) {l : List α}
    {x : α} (hx : x ∈ updateFirst p f l) :
    x ∈ l ∨ ∃ y ∈ l, p y = true ∧ x = f y := by
  induction l with
  | nil => simp [updateFirst] at hx
  | cons a as ih =>
    rw [updateFirst] at hx
    by_cases hpa : p a = true
    · rw [if_pos hpa, List.mem_cons] at hx
      rcases hx with hfa | has
      · exact Or.inr ⟨a, List.mem_cons_self a as, hpa, hfa⟩
      · exact Or.inl (List.mem_cons_of_mem a has)
    · rw [if_neg hpa, List.mem_cons] at hx
      rcases hx with h1 | h2
      · exact Or.inl (h1 ▸ List.mem_cons_self a as)
      · rcases ih h2 with h | ⟨y, hy, hpy, hxy⟩
        · exact Or.inl (List.mem_cons_of_mem a h)
        · exact Or.inr ⟨y, List.mem_cons_of_mem a hy, hpy, hxy⟩

theorem find?_updateFirst {α : Type} (p : α → Bool) (f : α → α) {l : List α}
    {a : α} (h : l.find? p = some a) (hfa : p (f a) = true) :
    (updateFirst p f l).find? p = some (f a) := by
  induction l with
  | nil => simp at h
  | cons x xs ih =>
    rw [updateFirst]
    by_cases hpx : p x = true
    · rw [List.find?_cons_of_pos xs hpx] at h
      cases h
      rw [if_pos hpx]
      exact List.find?_cons_of_pos _ hfa
    · rw [List.find?_cons_of_neg xs hpx] at h
      rw [if_neg hpx, List.find?_cons_of_neg _ hpx]
      exact ih h

theorem updateFirst_eq_of_fix {α : Type} (p : α → Bool) (f : α → α)
    {l : List α} {a : α} (h : l.find? p = some a) (hfix : f a = a) :
    updateFirst p f l = l := by
  induction l with
  | nil => simp at h
  | cons x xs ih =>
    rw [updateFirst]
    by_cases hpx : p x = true
    · rw [List.find?_cons_of_pos xs hpx] at h
      cases h
      rw [if_pos hpx, hfix]
    · rw [List.find?_cons_of_neg xs hpx] at h
      rw [if_neg hpx, ih h]

theorem map_updateFirst {α β : Type} (p : α → Bool) (f : α → α) (g : α → β)
    (hg : ∀ x, g (f x) = g x) (l : List α) :
    (updateFirst p f l).map g = l.map g := by
  induction l with
  | nil => rfl
  | cons x xs ih =>
    rw [updateFirst]
    by_cases hpx : p x = true
    · rw [if_pos hpx]
      simp [hg x]
    · rw [if_neg hpx]
      simp [ih]

theorem updateFirst_append_first {α : Type} (p : α → Bool) (f : α → α)
    (pre : List α) (r : α) (post : List α)
    (hpre : ∀ x ∈ pre, p x = false) (hr : p r = true) :
    updateFirst p f (pre ++ r :: post) = pre ++ f r :: post := by
  induction pre with
  | nil => simp [updateFirst, hr]
  | cons x xs ih =>
    have hx : ¬ (p x = true) := by
      simp [hpre x (List.mem_cons_self x xs)]
    simp only [List.cons_append, updateFirst, if_neg hx, List.cons.injEq,
      true_and]
    exact ih fun y hy => hpre y (List.mem_cons_of_mem x hy)

/-! ### Lemmas about `roundPercent` -/

theorem roundPercent_mono (n : Nat) {k k' : Nat} (h : k ≤ k') :
    roundPercent k n ≤ roundPercent k' n :=
  Nat.div_le_div_right (Nat.add_le_add_right (Nat.mul_le_mul_left 200 h) n)

theorem roundPercent_self {n : Nat} (hn : 0 < n) : roundPercent n n = 100 := by
  unfold roundPercent
  exact Nat.div_eq_of_lt_le (by omega) (by omega)

theorem roundPercent_ge_100 {k n : Nat} (hn : 0 < n) (h : n ≤ k) :
    100 ≤ roundPercent k n :=
  roundPercent_self hn ▸ roundPercent_mono n h

/-! ### Lemmas about `addLesson` and `stepRecord` -/

theorem addLesson_userId (l : String) (r : ProgressRecord) :
    (addLesson l r).userId = r.userId := by
  unfold addLesson
  split <;> rfl

theorem addLesson_courseId (l : String) (r : ProgressRecord) :
    (addLesson l r).courseId = r.courseId := by
  unfold addLesson
  split <;> rfl

theorem addLesson_completed (l : String) (r : ProgressRecord) :
    (addLesson l r).completed = r.completed := by
  unfold addLesson
  split <;> rfl

theorem addLesson_certificateId (l : String) (r : ProgressRecord) :
    (addLesson l r).certificateId = r.certificateId := by
  unfold addLesson
  split <;> rfl

theorem mem_addLesson_self (l : String) (r : ProgressRecord) :
    l ∈ (addLesson l r).completedLessons := by
  unfold addLesson
  split
  · assumption
  · simp

theorem mem_addLesson_of_mem {x : String} (l : String) (r : ProgressRecord)
    (hx : x ∈ r.completedLessons) : x ∈ (addLesson l r).completedLessons := by
  unfold addLesson
  split
  · exact hx
  · simp [hx]

theorem addLesson_length_le (l : String) (r : ProgressRecord) :
    r.completedLessons.length ≤ (addLesson l r).completedLessons.length := by
  unfold addLesson
  split <;> simp

theorem addLesson_of_mem {l : String} {r : ProgressRecord}
    (h : l ∈ r.completedLessons) : addLesson l r = r := by
  unfold addLesson
  rw [if_pos h]

theorem addLesson_nodup (l : String) {r : ProgressRecord}
    (h : r.completedLessons.Nodup) :
    (addLesson l r).completedLessons.Nodup := by
  unfold addLesson
  split
  · exact h
  · next hni => simp [List.nodup_append, h, hni]

/-- The expansion of `stepRecord` (definitional). -/
theorem stepRecord_def (c : Course) (l : String) (r : ProgressRecord) :
    stepRecord c l r =
      { addLesson l r with
        progress :=
          roundPercent (addLesson l r).completedLessons.length
            c.lessons.length,
        completed :=
          if roundPercent (addLesson l r).completedLessons.length
              c.lessons.length = 100
          then true else (addLesson l r).completed } := rfl

theorem stepRecord_completedLessons (c : Course) (l : String)
    (r : ProgressRecord) :
    (stepRecord c l r).completedLessons = (addLesson l r).completedLessons :=
  rfl

theorem stepRecord_userId (c : Course) (l : String) (r : ProgressRecord) :
    (stepRecord c l r).userId = r.userId :=
  addLesson_userId l r

theorem stepRecord_courseId (c : Course) (l : String) (r : ProgressRecord) :
    (stepRecord c l r).courseId = r.courseId :=
  addLesson_courseId l r

theorem stepRecord_certificateId (c : Course) (l : String)
    (r : ProgressRecord) :
    (stepRecord c l r).certificateId = r.certificateId :=
  addLesson_certificateId l r

theorem stepRecord_progress (c : Course) (l : String) (r : ProgressRecord) :
    (stepRecord c l r).progress =
      roundPercent (stepRecord c l r).completedLessons.length
        c.lessons.length := rfl

theorem stepRecord_completed (c : Course) (l : String) (r : ProgressRecord) :
    (stepRecord c l r).completed =
      if (stepRecord c l r).progress = 100 then true else r.completed := by
  rw [show (stepRecord c l r).completed =
      (if roundPercent (addLesson l r).completedLessons.length
          c.lessons.length = 100
       then true else (addLesson l r).completed) from rfl,
    addLesson_completed]
  rfl

theorem stepRecord_completed_of_progress (c : Course) (l : String)
    (r : ProgressRecord) (h : (stepRecord c l r).progress = 100) :
    (stepRecord c l r).completed = true := by
  rw [stepRecord_completed, if_pos h]

theorem matchesKey_stepRecord (u cid : String) (c : Course) (l : String)
    (r : ProgressRecord) :
    matchesKey u cid (stepRecord c l r) = matchesKey u cid r := by
  unfold matchesKey
  rw [stepRecord_userId, stepRecord_courseId]

theorem matchesKey_freshRecord (u cid : String) :
    matchesKey u cid (freshRecord u cid) = true := by
  simp [matchesKey, freshRecord]

theorem stepRecord_idem (c : Course) (l : String) (r : ProgressRecord) :
    stepRecord c l (stepRecord c l r) = stepRecord c l r := by
  have hmem : l ∈ (stepRecord c l r).completedLessons := mem_addLesson_self l r
  have hadd : addLesson l (stepRecord c l r) = stepRecord c l r :=
    addLesson_of_mem hmem
  have hpr : (stepRecord c l r).progress =
      roundPercent (stepRecord c l r).completedLessons.length
        c.lessons.length := stepRecord_progress c l r
  rw [stepRecord_def c l (stepRecord c l r), hadd]
  by_cases h100 : roundPercent (stepRecord c l r).completedLessons.length
      c.lessons.length = 100
  · have ht : (stepRecord c l r).completed = true :=
      stepRecord_completed_of_progress c l r (hpr.trans h100)
    rw [if_pos h100, ← hpr, ← ht]
  · rw [if_neg h100, ← hpr]

/-! ### Characterization of a successful `recordLessonCompletion` call -/

theorem recordLessonCompletion_ok {db : Db} {c l u : String} {db' : Db}
    {s : Snapshot} (h : recordLessonCompletion db c l u = .ok (db', s)) :
    u ≠ "" ∧ ∃ course r0,
      db.courses.find? (fun x => x.id == c) = some course ∧
      db'.courses = db.courses ∧
      db'.certificates = db.certificates ∧
      s = ⟨(stepRecord course l r0).progress,
           (stepRecord course l r0).completed⟩ ∧
      db'.progress.find? (matchesKey u c) = some (stepRecord course l r0) ∧
      ((db.progress.find? (matchesKey u c) = some r0 ∧
          db'.progress =
            updateFirst (matchesKey u c) (stepRecord course l) db.progress) ∨
        (db.progress.find? (matchesKey u c) = none ∧ r0 = freshRecord u c ∧
          db'.progress = db.progress ++ [stepRecord course l r0])) := by
  unfold recordLessonCompletion at h
  split at h
  · exact absurd h (by simp)
  next hu =>
    refine ⟨hu, ?_⟩
    split at h
    · exact absurd h (by simp)
    next course hfc =>
      split at h
      next r0 hfr =>
        rw [Except.ok.injEq, Prod.mk.injEq] at h
        obtain ⟨hdb, hs⟩ := h
        refine ⟨course, r0, hfc, ?_⟩
        subst hdb hs
        have hkey : matchesKey u c (stepRecord course l r0) = true := by
          rw [matchesKey_stepRecord]
          exact List.find?_some hfr
        refine ⟨rfl, rfl, rfl, ?_, Or.inl ⟨hfr, rfl⟩⟩
        exact find?_updateFirst (matchesKey u c) (stepRecord course l) hfr hkey
      next hfr =>
        rw [Except.ok.injEq, Prod.mk.injEq] at h
        obtain ⟨hdb, hs⟩ := h
        refine ⟨course, freshRecord u c, hfc, ?_⟩
        subst hdb hs
        refine ⟨rfl, rfl, rfl, ?_, Or.inr ⟨hfr, rfl, rfl⟩⟩
        rw [show ({ db with
            progress :=
              db.progress ++ [stepRecord course l (freshRecord u c)] } :
            Db).progress =
            db.progress ++ [stepRecord course l (freshRecord u c)] from rfl,
          find?_append_of_none _ _ hfr, List.find?_cons_of_pos _ (by
            rw [matchesKey_stepRecord]
            exact matchesKey_freshRecord u c)]

/-! ### Characterizations of the other handlers' successful calls -/

theorem createCourseHandler_ok {db : Db} {role : Option String}
    {input : CourseInput} {newId : String} {db' : Db} {course : Course}
    (h : createCourseHandler db role input newId = .ok (db', course)) :
    db' = { db with courses := db.courses ++ [newCourseOf input newId] } ∧
      course = newCourseOf input newId := by
  unfold createCourseHandler at h
  split at h
  · unfold createCourse at h
    split at h
    · cases h
    · rw [Except.ok.injEq, Prod.mk.injEq] at h
      exact ⟨h.1.symm, h.2.symm⟩
  · cases h

theorem updateCourseHandler_ok {db : Db} {role : Option String}
    {cid : String} {u : CourseUpdate} {db' : Db} {course : Course}
    (h : updateCourseHandler db role cid u = .ok (db', course)) :
    ∃ c0, db.courses.find? (fun x => x.id == cid) = some c0 ∧
      db' = { db with
              courses := updateFirst (fun x => x.id == cid)
                (fun x => applyUpdate x u) db.courses } ∧
      course = applyUpdate c0 u := by
  unfold updateCourseHandler at h
  split at h
  · unfold updateCourse at h
    split at h
    · cases h
    next c0 hfc =>
      rw [Except.ok.injEq, Prod.mk.injEq] at h
      exact ⟨c0, hfc, h.1.symm, h.2.symm⟩
  · cases h

theorem issueCertificate_ok {db : Db} {c u : String} {score : Option Nat}
    {certId now : String} {db' : Db} {ret : String}
    (h : issueCertificate db c u score certId now = .ok (db', ret)) :
    ∃ course, db.courses.find? (fun x => x.id == c) = some course ∧
      ret = certId ∧
      db' = { db with
              certificates :=
                db.certificates ++ [certOf certId u c course now score],
              progress :=
                if (db.progress.find? (matchesKey u c)).isSome
                then updateFirst (matchesKey u c) (setCert certId) db.progress
                else db.progress } := by
  unfold issueCertificate at h
  split at h
  · cases h
  · split at h
    · cases h
    next course hfc =>
      rw [Except.ok.injEq, Prod.mk.injEq] at h
      exact ⟨course, hfc, h.2.symm, h.1.symm⟩

/-! ### Preservation of the completed-flag invariant (C2) -/

theorem applyOp_CompletedConsistent {db : Db} (op : Op)
    (h : CompletedConsistent db) : CompletedConsistent (applyOp db op) := by
  cases op with
  | create role input newId =>
    simp only [applyOp]
    split
    next db' course hres =>
      obtain ⟨hdb, -⟩ := createCourseHandler_ok hres
      subst hdb
      exact h
    next => exact h
  | update role cid u =>
    simp only [applyOp]
    split
    next db' course hres =>
      obtain ⟨c0, -, hdb, -⟩ := updateCourseHandler_ok hres
      subst hdb
      exact h
    next => exact h
  | record cid lid uid =>
    simp only [applyOp]
    split
    next db' s hres =>
      obtain ⟨-, course, r0, -, -, -, -, -, hcase⟩ :=
        recordLessonCompletion_ok hres
      intro r hr h100
      rcases hcase with ⟨-, hprog⟩ | ⟨-, -, hprog⟩
      · rw [hprog] at hr
        rcases mem_updateFirst _ _ hr with hold | ⟨y, -, -, hy⟩
        · exact h r hold h100
        · subst hy
          exact stepRecord_completed_of_progress course lid y h100
      · rw [hprog] at hr
        rcases List.mem_append.mp hr with hold | hnew
        · exact h r hold h100
        · rcases List.mem_singleton.mp hnew with rfl
          exact stepRecord_completed_of_progress course lid r0 h100
    next => exact h
  | cert cid uid score certId now =>
    simp only [applyOp]
    split
    next db' ret hres =>
      obtain ⟨course, -, -, hdb⟩ := issueCertificate_ok hres
      subst hdb
      intro r hr h100
      show r.completed = true
      by_cases hfind : (db.progress.find? (matchesKey uid cid)).isSome = true
      · rw [show ({ db with
              certificates := db.certificates ++
                [certOf certId uid cid course now score],
              progress :=
                if (db.progress.find? (matchesKey uid cid)).isSome
                then updateFirst (matchesKey uid cid) (setCert certId)
                  db.progress
                else db.progress } : Db).progress =
            (if (db.progress.find? (matchesKey uid cid)).isSome
             then updateFirst (matchesKey uid cid) (setCert certId)
               db.progress
             else db.progress) from rfl, if_pos hfind] at hr
        rcases mem_updateFirst _ _ hr with hold | ⟨y, hy, -, hysub⟩
        · exact h r hold h100
        · subst hysub
          exact h y hy h100
      · rw [show ({ db with
              certificates := db.certificates ++
                [certOf certId uid cid course now score],
              progress :=
                if (db.progress.find? (matchesKey uid cid)).isSome
                then updateFirst (matchesKey uid cid) (setCert certId)
                  db.progress
                else db.progress } : Db).progress =
            (if (db.progress.find? (matchesKey uid cid)).isSome
             then updateFirst (matchesKey uid cid) (setCert certId)
               db.progress
             else db.progress) from rfl, if_neg hfind] at hr
        exact h r hr h100
    next => exact h

/-! ### Simulation of a sequence of completion calls (C1) -/

/-- With the course present and the pair's record present, each completion
call steps the pair's record and touches nothing else the lookup sees. -/
theorem runRecords_find_some (cid uid : String) (course : Course)
    (hu : uid ≠ "") (ls : List String) :
    ∀ (db : Db) (r0 : ProgressRecord),
      db.courses.find? (fun x => x.id == cid) = some course →
      db.progress.find? (matchesKey uid cid) = some r0 →
      (runRecords db cid uid ls).progress.find? (matchesKey uid cid) =
        some (ls.foldl (fun r l => stepRecord course l r) r0) := by
  induction ls with
  | nil => exact fun db r0 _ hfr => hfr
  | cons l rest ih =>
    intro db r0 hfc hfr
    have hok : recordLessonCompletion db cid l uid =
        .ok ({ db with
                progress := updateFirst (matchesKey uid cid)
                  (stepRecord course l) db.progress },
             { progress := (stepRecord course l r0).progress,
               completed := (stepRecord course l r0).completed }) := by
      unfold recordLessonCompletion
      rw [if_neg hu, hfc, hfr]
    have happly : applyOp db (.record cid l uid) =
        { db with
          progress := updateFirst (matchesKey uid cid)
            (stepRecord course l) db.progress } := by
      simp only [applyOp, hok]
    have hstep : runRecords db cid uid (l :: rest) =
        runRecords (applyOp db (.record cid l uid)) cid uid rest := rfl
    rw [hstep, happly]
    exact ih _ (stepRecord course l r0) hfc
      (find?_updateFirst _ _ hfr (by
        rw [matchesKey_stepRecord]
        exact List.find?_some hfr))

/-- With the course present and no record for the pair yet, a nonempty
sequence of completion calls creates the record and folds `stepRecord` over
it starting from the fresh record. -/
theorem runRecords_find_none (cid uid : String) (course : Course)
    (hu : uid ≠ "") (db : Db) (ls : List String) (l : String)
    (hfc : db.courses.find? (fun x => x.id == cid) = some course)
    (hfr : db.progress.find? (matchesKey uid cid) = none) :
    (runRecords db cid uid (l :: ls)).progress.find? (matchesKey uid cid) =
      some ((l :: ls).foldl (fun r lid => stepRecord course lid r)
        (freshRecord uid cid)) := by
  have hok : recordLessonCompletion db cid l uid =
      .ok ({ db with
              progress := db.progress ++
                [stepRecord course l (freshRecord uid cid)] },
           { progress := (stepRecord course l (freshRecord uid cid)).progress,
             completed :=
               (stepRecord course l (freshRecord uid cid)).completed }) := by
    unfold recordLessonCompletion
    rw [if_neg hu, hfc, hfr]
  have happly : applyOp db (.record cid l uid) =
      { db with
        progress := db.progress ++
          [stepRecord course l (freshRecord uid cid)] } := by
    simp only [applyOp, hok]
  have hstep : runRecords db cid uid (l :: ls) =
      runRecords (applyOp db (.record cid l uid)) cid uid ls := rfl
  rw [hstep, happly]
  exact runRecords_find_some cid uid course hu ls _
    (stepRecord course l (freshRecord uid cid)) hfc (by
      rw [show ({ db with
            progress := db.progress ++
              [stepRecord course l (freshRecord uid cid)] } : Db).progress =
          db.progress ++ [stepRecord course l (freshRecord uid cid)]
          from rfl,
        find?_append_of_none _ _ hfr, List.find?_cons_of_pos _ (by
          rw [matchesKey_stepRecord]
          exact matchesKey_freshRecord uid cid)])

/-- Every lessonId passed to the fold (and everything already in the set)
ends up in the completed set. -/
theorem foldl_step_mem (course : Course) (ls : List String) :
    ∀ (r : ProgressRecord) (x : String),
      x ∈ ls ∨ x ∈ r.completedLessons →
      x ∈ (ls.foldl (fun r l => stepRecord course l r) r).completedLessons := by
  induction ls with
  | nil =>
    intro r x hx
    rcases hx with h | h
    · cases h
    · exact h
  | cons l rest ih =>
    intro r x hx
    apply ih (stepRecord course l r) x
    rcases hx with h | h
    · rcases List.mem_cons.mp h with h1 | h2
      · right
        subst h1
        exact mem_addLesson_self x r
      · left
        exact h2
    · right
      exact mem_addLesson_of_mem l r h

/-- After at least one call, the stored percentage is the recomputed
rounded ratio of the final completed-set size to the lesson count. -/
theorem foldl_step_progress (course : Course) (ls : List String) :
    ∀ (r : ProgressRecord) (l : String),
      ((l :: ls).foldl (fun r lid => stepRecord course lid r) r).progress =
        roundPercent
          ((l :: ls).foldl (fun r lid => stepRecord course lid r)
            r).completedLessons.length course.lessons.length := by
  induction ls with
  | nil => exact fun r l => stepRecord_progress course l r
  | cons l2 rest ih => exact fun r l => ih (stepRecord course l r) l2

/-- If every lesson id of a duplicate-free nonempty lesson list occurs in
the call sequence, the final stored percentage is at least 100. -/
theorem foldl_step_ge_100 (course : Course) (l0 : String)
    (rest : List String) (r : ProgressRecord)
    (hne : course.lessons ≠ [])
    (hnd : (course.lessons.map Lesson.id).Nodup)
    (hall : ∀ lsn ∈ course.lessons, lsn.id ∈ l0 :: rest) :
    100 ≤ ((l0 :: rest).foldl (fun r lid => stepRecord course lid r)
      r).progress := by
  rw [foldl_step_progress course rest r l0]
  apply roundPercent_ge_100 (List.length_pos.mpr hne)
  have hsub : (course.lessons.map Lesson.id) ⊆
      ((l0 :: rest).foldl (fun r lid => stepRecord course lid r)
        r).completedLessons := by
    intro x hx
    rw [List.mem_map] at hx
    obtain ⟨lsn, hlsn, hid⟩ := hx
    subst hid
    exact foldl_step_mem course (l0 :: rest) r lsn.id
      (Or.inl (hall lsn hlsn))
  calc course.lessons.length
      = (course.lessons.map Lesson.id).length := (List.length_map _ _).symm
    _ ≤ _ := (hnd.subperm hsub).length_le

/-! ### Claim theorems -/

/-- **C4** (confirmed).  Idempotence: for every store state in which the
call succeeds (in particular whenever the course exists and a userId is
supplied), an immediate second `recordLessonCompletion` with the same
`(courseId, lessonId, userId)` returns the same store and the same
`{progress, completed}` snapshot as the first call: the lesson id is already
in the completed set, so the set, the recomputed percentage and the
completed flag are all unchanged. -/
theorem recordLessonCompletion_idempotent (db : Db) (c l u : String)
    (db1 : Db) (s1 : Snapshot)
    (h : recordLessonCompletion db c l u = .ok (db1, s1)) :
    recordLessonCompletion db1 c l u = .ok (db1, s1) := by
  obtain ⟨hu, course, r0, hfc, hcourses, -, hs, hfind, -⟩ :=
    recordLessonCompletion_ok h
  have hfc1 : db1.courses.find? (fun x => x.id == c) = some course := by
    rw [hcourses, hfc]
  unfold recordLessonCompletion
  rw [if_neg hu]
  split
  next hnone => rw [hfc1] at hnone; cases hnone
  next course' hsome =>
    rw [hfc1] at hsome
    cases hsome
    split
    next r0' hr0' =>
      rw [hfind] at hr0'
      cases hr0'
      rw [stepRecord_idem,
        updateFirst_eq_of_fix _ _ hfind (stepRecord_idem course l r0), hs]
    next hnone => rw [hfind] at hnone; cases hnone

/-- Witness for `recordLessonCompletion_idempotent`: completing `L1` twice
in the two-lesson course leaves the store at the one-completion state and
returns `{progress: 50, completed: false}` both times. -/
theorem recordLessonCompletion_idempotent_witness :
    recordLessonCompletion demoDb2Done "c1" "L1" "u1" =
      .ok (demoDb2Done, ⟨50, false⟩) :=
  recordLessonCompletion_idempotent demoDb2 "c1" "L1" "u1" demoDb2Done
    ⟨50, false⟩ rfl

/-- **C7** (confirmed).  Error atomicity: when no course matches `courseId`
(and a userId is supplied — an absent userId is rejected with a 400 before
the course lookup), the call returns the 404 `NotFoundError` and the store
is unchanged, so no progress record is created. -/
theorem recordLessonCompletion_notFound_atomic (db : Db) (c l u : String)
    (hu : u ≠ "") (hc : db.courses.find? (fun x => x.id == c) = none) :
    recordLessonCompletion db c l u = .error .notFound ∧
      runOps db [.record c l u] = db := by
  have herr : recordLessonCompletion db c l u = .error .notFound := by
    unfold recordLessonCompletion
    rw [if_neg hu, hc]
  refine ⟨herr, ?_⟩
  show applyOp db (.record c l u) = db
  simp only [applyOp, herr]

/-- Witness for `recordLessonCompletion_notFound_atomic` at the empty
store. -/
theorem recordLessonCompletion_notFound_atomic_witness :
    recordLessonCompletion initDb "nope" "L1" "u1" = .error .notFound ∧
      runOps initDb [.record "nope" "L1" "u1"] = initDb :=
  recordLessonCompletion_notFound_atomic initDb "nope" "L1" "u1"
    (by decide) (by decide)

/-- **C9** (confirmed).  Admin gate atomicity: a `POST /api/courses` whose
`x-role` header is absent or not `"admin"` gets a 403 Forbidden and the
store — in particular the `listCourses` sequence — is unchanged. -/
theorem createCourse_admin_gate (db : Db) (role : Option String)
    (input : CourseInput) (newId : String) (h : role ≠ some "admin") :
    createCourseHandler db role input newId = .error .forbidden ∧
      runOps db [.create role input newId] = db ∧
      listCourses (runOps db [.create role input newId]) = listCourses db := by
  have herr : createCourseHandler db role input newId = .error .forbidden := by
    unfold createCourseHandler
    rw [if_neg (by simp [requireAdmin, h])]
  have hdb : runOps db [.create role input newId] = db := by
    show applyOp db (.create role input newId) = db
    simp only [applyOp, herr]
  exact ⟨herr, hdb, by rw [hdb]⟩

/-- Witness for `createCourse_admin_gate`: a roleless request against the
empty store. -/
theorem createCourse_admin_gate_witness :
    createCourseHandler initDb none demoInput1 "c1" = .error .forbidden ∧
      runOps initDb [.create none demoInput1 "c1"] = initDb ∧
      listCourses (runOps initDb [.create none demoInput1 "c1"]) =
        listCourses initDb :=
  createCourse_admin_gate initDb none demoInput1 "c1" (by decide)

/-- **C5** (confirmed).  Monotonicity: across two successive successful
`recordLessonCompletion` calls for the same `(courseId, userId)` with no
interleaved operation, the returned percentage does not decrease (the
completed set only grows and the lesson count is fixed); chaining this fact
covers any sequence of successive completions, distinct lessonIds or not. -/
theorem recordLessonCompletion_monotone (db : Db) (c u l1 l2 : String)
    (db1 db2 : Db) (s1 s2 : Snapshot)
    (h1 : recordLessonCompletion db c l1 u = .ok (db1, s1))
    (h2 : recordLessonCompletion db1 c l2 u = .ok (db2, s2)) :
    s1.progress ≤ s2.progress := by
  obtain ⟨hu, course, r0, hfc, hcourses1, -, hs1, hfind1, -⟩ :=
    recordLessonCompletion_ok h1
  obtain ⟨-, course', r0', hfc', hcourses2, -, hs2, hfind2, hcase2⟩ :=
    recordLessonCompletion_ok h2
  have hcc : course' = course := by
    rw [hcourses1, hfc] at hfc'
    exact (Option.some.inj hfc').symm
  subst hcc
  have hr : r0' = stepRecord course' l1 r0 := by
    rcases hcase2 with ⟨hfr, -⟩ | ⟨hnone, -, -⟩
    · rw [hfind1] at hfr
      exact (Option.some.inj hfr).symm
    · rw [hfind1] at hnone
      cases hnone
  subst hr
  have hp1 : s1.progress = (stepRecord course' l1 r0).progress := by
    rw [hs1]
  have hp2 : s2.progress =
      (stepRecord course' l2 (stepRecord course' l1 r0)).progress := by
    rw [hs2]
  rw [hp1, hp2, stepRecord_progress course' l1 r0,
    stepRecord_progress course' l2 (stepRecord course' l1 r0)]
  apply roundPercent_mono
  rw [stepRecord_completedLessons course' l2 (stepRecord course' l1 r0)]
  exact addLesson_length_le l2 (stepRecord course' l1 r0)

/-- Witness for `recordLessonCompletion_monotone`: completing `L1` then `L2`
in the two-lesson course gives 50 then 100. -/
theorem recordLessonCompletion_monotone_witness :
    (50 : Nat) ≤ 100 :=
  recordLessonCompletion_monotone demoDb2 "c1" "u1" "L1" "L2" demoDb2Done
    (applyOp demoDb2Done (.record "c1" "L2" "u1")) ⟨50, false⟩ ⟨100, true⟩
    rfl rfl

/-- **C6** (confirmed).  `createCourse` fails with the `ValidationError`
response exactly when title, description or category is empty (or missing:
both are falsy) or `lessons` is not an array; on every valid input, given
that the generated identifier is fresh (`randomUUID`), it returns the
created course with `id = newId`, `progress = 0`, `completed = false`, an
identifier not previously seen, and appends it to the `listCourses`
sequence, preserving insertion order. -/
theorem createCourse_correct (db : Db) (input : CourseInput) (newId : String)
    (hfresh : newId ∉ (listCourses db).map Course.id) :
    (createCourse db input newId = .error (.validation "Invalid course") ↔
      (input.title = "" ∨ input.description = "" ∨ input.category = "" ∨
        input.lessons = none)) ∧
    (∀ db' course, createCourse db input newId = .ok (db', course) →
      course.id = newId ∧ course.progress = 0 ∧ course.completed = false ∧
      course.id ∉ (listCourses db).map Course.id ∧
      listCourses db' = listCourses db ++ [course]) := by
  by_cases hv : input.title = "" ∨ input.description = "" ∨
      input.category = "" ∨ input.lessons = none
  · have hb : (decide (input.title = "") || decide (input.description = "") ||
        decide (input.category = "") || input.lessons.isNone) = true := by
      simp only [Bool.or_eq_true, decide_eq_true_eq,
        Option.isNone_iff_eq_none]
      tauto
    have herr : createCourse db input newId =
        .error (.validation "Invalid course") := by
      unfold createCourse
      rw [if_pos hb]
    refine ⟨⟨fun _ => hv, fun _ => herr⟩, ?_⟩
    intro db' course hok
    rw [herr] at hok
    cases hok
  · have hb : ¬ ((decide (input.title = "") ||
        decide (input.description = "") || decide (input.category = "") ||
        input.lessons.isNone) = true) := by
      simp only [Bool.or_eq_true, decide_eq_true_eq,
        Option.isNone_iff_eq_none]
      tauto
    have hok : createCourse db input newId =
        .ok ({ db with courses := db.courses ++ [newCourseOf input newId] },
          newCourseOf input newId) := by
      unfold createCourse
      rw [if_neg hb]
    constructor
    · constructor
      · intro he
        rw [hok] at he
        cases he
      · intro hinv
        exact absurd hinv hv
    · intro db' course h
      rw [hok, Except.ok.injEq, Prod.mk.injEq] at h
      obtain ⟨hdb, hcourse⟩ := h
      subst hdb
      subst hcourse
      exact ⟨rfl, rfl, rfl, hfresh, rfl⟩

/-- Witness for `createCourse_correct`: creating `demoInput2` in the empty
store. -/
theorem createCourse_correct_witness :
    (createCourse initDb demoInput2 "c1" =
        .error (.validation "Invalid course") ↔
      (demoInput2.title = "" ∨ demoInput2.description = "" ∨
        demoInput2.category = "" ∨ demoInput2.lessons = none)) ∧
    (∀ db' course, createCourse initDb demoInput2 "c1" = .ok (db', course) →
      course.id = "c1" ∧ course.progress = 0 ∧ course.completed = false ∧
      course.id ∉ (listCourses initDb).map Course.id ∧
      listCourses db' = listCourses initDb ++ [course]) :=
  createCourse_correct initDb demoInput2 "c1" (by decide)

/-- **C8** (confirmed).  `issueCertificate` fails with `NotFoundError` iff
the course does not exist (given a userId; an absent userId is a 400 before
the lookup); otherwise — with no requirement on the progress percentage —
it appends a certificate with the fresh identifier capturing the current
course title, sets the certificate reference of the first (userId, courseId)
progress record when one exists while leaving every other record unchanged,
and returns the new identifier. -/
theorem issueCertificate_correct (db : Db) (c u : String) (score : Option Nat)
    (certId now : String) (hu : u ≠ "")
    (hfresh : certId ∉ db.certificates.map Certificate.id) :
    (issueCertificate db c u score certId now = .error .notFound ↔
      db.courses.find? (fun x => x.id == c) = none) ∧
    (∀ course, db.courses.find? (fun x => x.id == c) = some course →
      ∃ db', issueCertificate db c u score certId now = .ok (db', certId) ∧
        db'.courses = db.courses ∧
        db'.certificates =
          db.certificates ++ [certOf certId u c course now score] ∧
        (certOf certId u c course now score).id = certId ∧
        (certOf certId u c course now score).courseName = course.title ∧
        certId ∉ db.certificates.map Certificate.id ∧
        (db.progress.find? (matchesKey u c) = none →
          db'.progress = db.progress) ∧
        (∀ pre r post, db.progress = pre ++ r :: post →
          (∀ x ∈ pre, matchesKey u c x = false) →
          matchesKey u c r = true →
          db'.progress = pre ++ setCert certId r :: post)) := by
  constructor
  · constructor
    · intro he
      rcases hfc : db.courses.find? (fun x => x.id == c) with _ | course
      · exact hfc
      · unfold issueCertificate at he
        rw [if_neg hu, hfc] at he
        cases he
    · intro hnone
      unfold issueCertificate
      rw [if_neg hu, hnone]
  · intro course hfc
    have hok : issueCertificate db c u score certId now =
        .ok ({ db with
                certificates :=
                  db.certificates ++ [certOf certId u c course now score],
                progress :=
                  if (db.progress.find? (matchesKey u c)).isSome
                  then updateFirst (matchesKey u c) (setCert certId)
                    db.progress
                  else db.progress }, certId) := by
      unfold issueCertificate
      rw [if_neg hu, hfc]
    refine ⟨_, hok, rfl, rfl, rfl, rfl, hfresh, ?_, ?_⟩
    · intro hnone
      show (if (db.progress.find? (matchesKey u c)).isSome
            then updateFirst (matchesKey u c) (setCert certId) db.progress
            else db.progress) = db.progress
      rw [hnone]
      rfl
    · intro pre r post hsplit hpre hr
      have hprenone : pre.find? (matchesKey u c) = none := by
        rw [List.find?_eq_none]
        intro x hx
        simp [hpre x hx]
      have hfull : db.progress.find? (matchesKey u c) = some r := by
        rw [hsplit, find?_append_of_none _ _ hprenone,
          List.find?_cons_of_pos _ hr]
      show (if (db.progress.find? (matchesKey u c)).isSome
            then updateFirst (matchesKey u c) (setCert certId) db.progress
            else db.progress) = pre ++ setCert certId r :: post
      rw [hfull]
      have hsome : (some r).isSome = true := rfl
      rw [if_pos hsome, hsplit]
      exact updateFirst_append_first _ _ pre r post hpre hr

/-- Witness for `issueCertificate_correct` against the store where `u1` has
completed one lesson of `c1` (progress 50, far from 100). -/
theorem issueCertificate_correct_witness :
    (issueCertificate demoDb2Done "c1" "u1" (some 90) "cert1" "t0" =
        .error .notFound ↔
      demoDb2Done.courses.find? (fun x => x.id == "c1") = none) ∧
    (∀ course,
      demoDb2Done.courses.find? (fun x => x.id == "c1") = some course →
      ∃ db', issueCertificate demoDb2Done "c1" "u1" (some 90) "cert1" "t0" =
          .ok (db', "cert1") ∧
        db'.courses = demoDb2Done.courses ∧
        db'.certificates = demoDb2Done.certificates ++
          [certOf "cert1" "u1" "c1" course "t0" (some 90)] ∧
        (certOf "cert1" "u1" "c1" course "t0" (some 90)).id = "cert1" ∧
        (certOf "cert1" "u1" "c1" course "t0" (some 90)).courseName =
          course.title ∧
        "cert1" ∉ demoDb2Done.certificates.map Certificate.id ∧
        (demoDb2Done.progress.find? (matchesKey "u1" "c1") = none →
          db'.progress = demoDb2Done.progress) ∧
        (∀ pre r post, demoDb2Done.progress = pre ++ r :: post →
          (∀ x ∈ pre, matchesKey "u1" "c1" x = false) →
          matchesKey "u1" "c1" r = true →
          db'.progress = pre ++ setCert "cert1" r :: post)) :=
  issueCertificate_correct demoDb2Done "c1" "u1" (some 90) "cert1" "t0"
    (by decide) (by decide)

/-- **C2 counterexample** (closed).  The claimed invariant — `completed`
true iff the stored percentage equals 100 — fails in a reachable state: in
the one-lesson course, completing `L1` sets progress 100 / completed true,
and a further call with a foreign lessonId `X` recomputes progress to 200
while `completed` is never reset. -/
theorem completed_iff_100_counterexample :
    ∃ r ∈ (runOps initDb demoOpsOver).progress,
      r.completed = true ∧ r.progress ≠ 100 := by
  decide

/-- **C2 amended**.  In every state reachable by any sequence of operations
from the empty store, every progress record whose stored percentage equals
100 has `completed = true`.  (The original iff is false — see the
counterexample — because `completed` is set when the recomputed percentage
is 100 but never cleared when it later moves past 100.) -/
theorem reachable_progress_100_implies_completed (ops : List Op) :
    ∀ r ∈ (runOps initDb ops).progress, r.progress = 100 →
      r.completed = true := by
  have key : ∀ db, CompletedConsistent db →
      CompletedConsistent (runOps db ops) := by
    induction ops with
    | nil => exact fun db h => h
    | cons op rest ih =>
      exact fun db h => ih _ (applyOp_CompletedConsistent op h)
  exact key initDb (by intro r hr h100; simp [initDb] at hr)

/-- Witness for `reachable_progress_100_implies_completed`: after both
lessons of the two-lesson course are completed the record reads
progress 100, completed true. -/
theorem reachable_progress_100_implies_completed_witness :
    ({ userId := "u1", courseId := "c1", completedLessons := ["L1", "L2"],
       progress := 100, completed := true,
       certificateId := none } : ProgressRecord).completed = true :=
  reachable_progress_100_implies_completed demoOpsDone
    { userId := "u1", courseId := "c1", completedLessons := ["L1", "L2"],
      progress := 100, completed := true, certificateId := none }
    (by decide) (by decide)

/-! ### Preservation of course-identifier uniqueness (C3) -/

theorem applyOp_nodup_ids {db : Db} {op : Op} (hsafe : safeOp db op = true)
    (h : (db.courses.map Course.id).Nodup) :
    ((applyOp db op).courses.map Course.id).Nodup := by
  cases op with
  | create role input newId =>
    simp only [applyOp]
    split
    next db' course hres =>
      obtain ⟨hdb, -⟩ := createCourseHandler_ok hres
      subst hdb
      have hfresh : newId ∉ db.courses.map Course.id := by
        simpa [safeOp] using hsafe
      show ((db.courses ++ [newCourseOf input newId]).map Course.id).Nodup
      rw [List.map_append]
      simp [List.nodup_append, h, newCourseOf, hfresh]
    next => exact h
  | update role cid u =>
    simp only [applyOp]
    split
    next db' course hres =>
      obtain ⟨c0, -, hdb, -⟩ := updateCourseHandler_ok hres
      subst hdb
      have hid : u.id = none := by
        simpa [safeOp, Option.isNone_iff_eq_none] using hsafe
      show ((updateFirst (fun x => x.id == cid) (fun x => applyUpdate x u)
          db.courses).map Course.id).Nodup
      rw [map_updateFirst _ _ Course.id (fun x => by
        simp [applyUpdate, hid])]
      exact h
    next => exact h
  | record cid lid uid =>
    simp only [applyOp]
    split
    next db' s hres =>
      obtain ⟨-, course, r0, -, hcourses, -⟩ :=
        recordLessonCompletion_ok hres
      rw [hcourses]
      exact h
    next => exact h
  | cert cid uid score certId now =>
    simp only [applyOp]
    split
    next db' ret hres =>
      obtain ⟨course, -, -, hdb⟩ := issueCertificate_ok hres
      subst hdb
      exact h
    next => exact h

/-- **C3 counterexample** (closed).  `updateCourse`'s shallow merge accepts
an `id` field from the request body: after creating courses `A` and `B`, a
`PATCH /api/courses/A` with body `{id: "B"}` renames course `A` to `B`, so
an operation both changes an existing course's identifier and makes two
courses share one. -/
theorem course_id_unique_counterexample :
    ¬ ((runOps initDb demoOpsDup).courses.map Course.id).Nodup ∧
      (runOps initDb demoOpsDup).courses.map Course.id = ["B", "B"] := by
  decide

/-- **C3 amended**.  Provided every creation in the trace is supplied a
fresh identifier (which `randomUUID` provides) and no update body carries an
`id` field, course identifiers remain pairwise distinct under every sequence
of operations; without the update restriction the property is false (see the
counterexample), since `Object.assign` merges a body-supplied `id` like any
other field. -/
theorem course_ids_nodup_of_safeTrace (ops : List Op)
    (hsafe : safeTrace initDb ops = true) :
    ((runOps initDb ops).courses.map Course.id).Nodup := by
  have key : ∀ db, safeTrace db ops = true →
      (db.courses.map Course.id).Nodup →
      ((runOps db ops).courses.map Course.id).Nodup := by
    clear hsafe
    induction ops with
    | nil => exact fun db _ h => h
    | cons op rest ih =>
      intro db hs h
      rw [safeTrace, Bool.and_eq_true] at hs
      exact ih (applyOp db op) hs.2 (applyOp_nodup_ids hs.1 h)
  exact key initDb hsafe (by simp [initDb])

/-- Witness for `course_ids_nodup_of_safeTrace`: the benign prefix of the
duplicate-id trace (two creations, no id-carrying update) keeps ids
distinct. -/
theorem course_ids_nodup_of_safeTrace_witness :
    ((runOps initDb [.create (some "admin") demoInput1 "A",
        .create (some "admin") demoInput1 "B"]).courses.map
      Course.id).Nodup :=
  course_ids_nodup_of_safeTrace
    [.create (some "admin") demoInput1 "A",
     .create (some "admin") demoInput1 "B"] (by decide)

/-- **C1 counterexample** (closed).  In the two-lesson course, passing `L1`
and then the foreign lessonId `X` stores percentage exactly 100 although the
listed lesson `L2` was never passed — the handler counts any lessonId — so
"percentage reaches 100 iff every lesson identifier in the course's lesson
list has been passed" is false in the only-if direction. -/
theorem completion_equiv_counterexample :
    ∃ r ∈ (runOps initDb demoOpsC1).progress,
      r.progress = 100 ∧
      "L2" ∈ ((newCourseOf demoInput2 "c1").lessons.map Lesson.id) ∧
      "L2" ∉ r.completedLessons := by
  decide

/-- **C1 amended**.  The surviving direction: for a course with a nonempty
duplicate-free lesson list, if every lesson identifier in the list is passed
to `recordLessonCompletion` for the (courseId, userId) pair, the stored
percentage reaches at least 100 (exactly 100 when nothing else was passed).
The converse is false — see the counterexample — because lessonIds outside
the lesson list are counted too. -/
theorem all_lessons_passed_reaches_100 (db : Db) (course : Course)
    (uid : String) (ls : List String) (hu : uid ≠ "")
    (hfc : db.courses.find? (fun x => x.id == course.id) = some course)
    (hne : course.lessons ≠ [])
    (hnd : (course.lessons.map Lesson.id).Nodup)
    (hall : ∀ lsn ∈ course.lessons, lsn.id ∈ ls) :
    ∃ r, (runRecords db course.id uid ls).progress.find?
        (matchesKey uid course.id) = some r ∧ 100 ≤ r.progress := by
  obtain ⟨lsn0, hlsn0⟩ : ∃ x, x ∈ course.lessons := by
    cases hL : course.lessons with
    | nil => exact absurd hL hne
    | cons a t => exact ⟨a, hL ▸ List.mem_cons_self a t⟩
  obtain ⟨l0, rest, hls⟩ : ∃ l0 rest, ls = l0 :: rest := by
    cases hC : ls with
    | nil =>
      have := hall lsn0 hlsn0
      rw [hC] at this
      cases this
    | cons a t => exact ⟨a, t, rfl⟩
  subst hls
  rcases hstart : db.progress.find? (matchesKey uid course.id) with _ | r0
  · exact ⟨_, runRecords_find_none course.id uid course hu db rest l0 hfc
      hstart, foldl_step_ge_100 course l0 rest (freshRecord uid course.id)
        hne hnd hall⟩
  · exact ⟨_, runRecords_find_some course.id uid course hu (l0 :: rest) db
      r0 hfc hstart, foldl_step_ge_100 course l0 rest r0 hne hnd hall⟩

/-- Witness for `all_lessons_passed_reaches_100`: passing both lessons of
the two-lesson course. -/
theorem all_lessons_passed_reaches_100_witness :
    ∃ r, (runRecords demoDb2 (newCourseOf demoInput2 "c1").id "u1"
        ["L1", "L2"]).progress.find?
        (matchesKey "u1" (newCourseOf demoInput2 "c1").id) = some r ∧
      100 ≤ r.progress :=
  all_lessons_passed_reaches_100 demoDb2 (newCourseOf demoInput2 "c1") "u1"
    ["L1", "L2"] (by decide) (by decide) (by decide) (by decide) (by decide)

/-- **C10** (confirmed).  `recordLessonCompletion` never checks that the
lessonId belongs to the course's lesson list: every successful call leaves
the given lessonId in the pair's completed set, whose size feeds the
percentage, and concretely the reachable trace `demoOpsC10` (two real
lessons plus a foreign `X` in the two-lesson course) stores percentage
150 > 100. -/
theorem record_lessonId_unchecked (db : Db) (c l u : String) (db' : Db)
    (s : Snapshot) (h : recordLessonCompletion db c l u = .ok (db', s)) :
    (∃ r, db'.progress.find? (matchesKey u c) = some r ∧
      l ∈ r.completedLessons ∧ s.progress = r.progress) ∧
    (∃ r, (runOps initDb demoOpsC10).progress.find?
        (matchesKey "u1" "c1") = some r ∧ 100 < r.progress ∧
      "X" ∈ r.completedLessons ∧
      "X" ∉ ((newCourseOf demoInput2 "c1").lessons.map Lesson.id)) := by
  obtain ⟨-, course, r0, -, -, -, hs, hfind, -⟩ :=
    recordLessonCompletion_ok h
  constructor
  · refine ⟨stepRecord course l r0, hfind, ?_, by rw [hs]⟩
    exact mem_addLesson_self l r0
  · decide

/-- Witness for `record_lessonId_unchecked`: completing the foreign
lessonId `Z` in the two-lesson course succeeds and stores `Z`. -/
theorem record_lessonId_unchecked_witness :
    (∃ r, (applyOp demoDb2 (.record "c1" "Z" "u1")).progress.find?
        (matchesKey "u1" "c1") = some r ∧
      "Z" ∈ r.completedLessons ∧ (50 : Nat) = r.progress) ∧
    (∃ r, (runOps initDb demoOpsC10).progress.find?
        (matchesKey "u1" "c1") = some r ∧ 100 < r.progress ∧
      "X" ∈ r.completedLessons ∧
      "X" ∉ ((newCourseOf demoInput2 "c1").lessons.map Lesson.id)) :=
  record_lessonId_unchecked demoDb2 "c1" "Z" "u1"
    (applyOp demoDb2 (.record "c1" "Z" "u1")) ⟨50, false⟩ rfl

end VirtualWater
